import Mathlib

/-!
Formal model of the `billofmaterial` SBOM generator core (the dependency
analysis and document-generation engine in `generator.ts`), together with
theorems about its risk-scoring model, error bookkeeping, insights
aggregation, SPDX emission and rate limiter.

Modelling conventions:
* JavaScript `number` arithmetic is modelled over `ℚ` (the source never
  relies on float rounding error); integer-valued quantities are kept in `ℤ`.
* `Math.round x` is `⌊x + 1/2⌋` (JS rounds half-way cases toward +∞).
* `daysSinceUpdate` may be `Infinity` in the source (no publish timestamp);
  it is modelled as `WithTop ℤ` with `⊤` for `Infinity`.
* JS string truthiness (`s || d` falls through on the empty string) is
  modelled explicitly by `jsOrString`.
* `Array.prototype.sort` (stable, ES2019) with a numeric comparator `c` is
  modelled by `List.insertionSort` with the relation `c a b ≤ 0`, which is
  the unique stable sort for a total preorder.
-/

/-- `Math.round`: round half-way cases toward positive infinity. -/
def jsRound (q : ℚ) : ℤ := ⌊q + 1/2⌋

/-- JS `a || b` for strings (`undefined`/empty string fall through to `b`). -/
def jsOrString (a : Option String) (b : String) : String :=
  match a with
  | some s => if s = "" then b else s
  | none => b

/-- JS truthiness of an optional string (`undefined` and `""` are falsy). -/
def jsTruthyStr (a : Option String) : Bool :=
  match a with
  | some s => s ≠ ""
  | none => false

/-- Vulnerability severity enum (`VulnSeverity` in `types.ts`). -/
inductive VulnSeverity where
  | none
  | low
  | moderate
  | high
  | critical
  | unknown
deriving DecidableEq, Repr

/-- VEX status enum. -/
inductive VexStatus where
  | not_affected
  | affected
  | fixed
  | under_investigation
deriving DecidableEq, Repr

/-- One known vulnerability (`VulnerabilityInfo` in `types.ts`); only the
fields the modelled code reads are retained. -/
structure VulnerabilityInfo where
  id : String
  severity : VulnSeverity
  fixedIn : Option String := Option.none
  vexStatus : Option VexStatus := Option.none
deriving DecidableEq, Repr

/-- Supplier information extracted from registry metadata. -/
structure SupplierInfo where
  name : String
  email : Option String := Option.none
  url : Option String := Option.none
deriving DecidableEq, Repr

/-- The security-score provider returns an integer or the `'N/A'` sentinel
string (`securityScore: string | number`). -/
inductive SecurityScore where
  | num (n : ℤ)
  | na
deriving DecidableEq, Repr

/-- Numeric view used by the scorer and the insights pass:
`typeof s === 'number' ? s : parseInt(String(s)) || 0` (the only string the
engine stores is `'N/A'`, which parses to `NaN` and falls through to `0`). -/
def SecurityScore.toNumeric : SecurityScore → ℤ
  | .num n => n
  | .na => 0

/-- Discrete risk level. -/
inductive RiskLevel where
  | low
  | medium
  | high
deriving DecidableEq, Repr

/-- `RiskAssessment` attached to a record by the scorer. -/
structure RiskAssessment where
  score : ℤ
  riskLevel : RiskLevel
  factors : List String
deriving DecidableEq, Repr

/-- Normalized per-dependency record (`DependencyInfo` in `types.ts`). -/
structure DependencyInfo where
  name : String
  version : String
  description : String
  license : String
  licenseProblematic : Bool
  homepage : String
  securityScore : SecurityScore
  maintenanceScore : ℤ
  popularityScore : ℤ
  daysSinceUpdate : WithTop ℤ
  lastPublishDate : String
  weeklyDownloads : ℤ
  minifiedSize : ℤ
  gzipSize : ℤ
  hasVulnerabilities : Bool
  dependencyCount : ℕ
  peerDependencies : List (String × String)
  integrity : Option String := Option.none
  shasum : Option String := Option.none
  supplier : Option SupplierInfo := Option.none
  vulnerabilities : Option (List VulnerabilityInfo) := Option.none
  deprecated : Option String := Option.none
  transitiveDependencies : Option (List String) := Option.none
  risk : Option RiskAssessment := Option.none
deriving DecidableEq, Repr

/-- The fixed license denylist (`problematicLicenses` in `generator.ts`). -/
def problematicLicenses : List String :=
  ["GPL-2.0", "GPL-3.0", "AGPL-3.0", "LGPL-2.1", "LGPL-3.0",
   "CC-BY-SA-4.0", "CC-BY-NC-4.0"]

/-- `packageData.vulnerabilities || []`. -/
def vulnList (p : DependencyInfo) : List VulnerabilityInfo :=
  p.vulnerabilities.getD []

/-- Number of vulnerabilities of a given severity
(`vulns.filter(v => v.severity === s).length`). -/
def countSeverity (vs : List VulnerabilityInfo) (s : VulnSeverity) : ℕ :=
  (vs.filter (fun v => v.severity = s)).length

/-- License component of the weighted sum: `1`, or `0.5` on the denylist. -/
def riskLicenseScore (p : DependencyInfo) : ℚ :=
  if p.license ∈ problematicLicenses then 1/2 else 1

/-- Vulnerability component of the weighted sum, following the `if`-chain in
`calculateRiskScore`: `0` with a critical entry, `0.3` with a high entry and
no critical one, `0.6` for a non-empty list of lower severities, `1` for an
empty list. -/
def riskVulnScore (p : DependencyInfo) : ℚ :=
  if (vulnList p).length > 0 then
    if countSeverity (vulnList p) .critical > 0 then 0
    else if countSeverity (vulnList p) .high > 0 then 3/10
    else 6/10
  else 1

/-- The weighted sum accumulated in `totalScore` before the deprecation
penalty (security, maintenance, popularity, license, vulnerability terms in
source order). -/
def riskTotalBase (p : DependencyInfo) : ℚ :=
  ((p.securityScore.toNumeric : ℚ) / 100) * (35/100)
  + ((p.maintenanceScore : ℚ) / 100) * (25/100)
  + ((p.popularityScore : ℚ) / 100) * (15/100)
  + riskLicenseScore p * (1/10)
  + riskVulnScore p * (15/100)

/-- Final value of `totalScore`: halved when the record is deprecated. -/
def riskTotal (p : DependencyInfo) : ℚ :=
  if jsTruthyStr p.deprecated then riskTotalBase p * (1/2) else riskTotalBase p

/-- Rendering of `Math.round(daysSinceUpdate / 30)` inside a factor string
(`Infinity / 30` stays `Infinity`). -/
def monthsSinceUpdate : WithTop ℤ → String
  | ⊤ => "Infinity"
  | (d : ℤ) => toString (jsRound ((d : ℚ) / 30))

/-- Contributing-factor strings pushed by `calculateRiskScore`, in source
order. -/
def riskFactors (p : DependencyInfo) : List String :=
  (if p.securityScore.toNumeric < 70 then
    ["Low security score: " ++ toString p.securityScore.toNumeric ++ "/100"]
   else [])
  ++ (if ((365 : ℤ) : WithTop ℤ) < p.daysSinceUpdate then
    ["Not updated in " ++ monthsSinceUpdate p.daysSinceUpdate ++ " months"]
   else [])
  ++ (if ((p.popularityScore : ℚ) / 100) < 3/10 then
    ["Low popularity/downloads"]
   else [])
  ++ (if p.license ∈ problematicLicenses then
    ["Restrictive license: " ++ p.license]
   else [])
  ++ (let vulns := vulnList p
      if vulns.length > 0 then
        if countSeverity vulns .critical > 0 then
          [toString (countSeverity vulns .critical) ++ " critical vulnerabilit"
            ++ (if countSeverity vulns .critical > 1 then "ies" else "y")]
        else if countSeverity vulns .high > 0 then
          [toString (countSeverity vulns .high) ++ " high-severity vulnerabilit"
            ++ (if countSeverity vulns .high > 1 then "ies" else "y")]
        else
          [toString vulns.length ++ " known vulnerabilit"
            ++ (if vulns.length > 1 then "ies" else "y")]
      else [])
  ++ (if jsTruthyStr p.deprecated then ["Package is deprecated"] else [])

/-- `calculateRiskScore`, including its side effect: it returns the
`RiskAssessment` together with the record as it stands after the call
(the source mutates `packageData.hasVulnerabilities` in place when the
vulnerability list is non-empty). -/
def calculateRiskScoreRun (p : DependencyInfo) : RiskAssessment × DependencyInfo :=
  (⟨jsRound (riskTotal p * 100),
    if riskTotal p > 7/10 then .low
    else if riskTotal p > 4/10 then .medium
    else .high,
    riskFactors p⟩,
   if (vulnList p).length > 0 then { p with hasVulnerabilities := true } else p)

/-- The returned `RiskAssessment` of `calculateRiskScore`. -/
def calculateRiskScore (p : DependencyInfo) : RiskAssessment :=
  (calculateRiskScoreRun p).1

/-- Specification-side risk score, written as the single closed formula of
the design document: `round(100 · (w · (0.35·s/100 + 0.25·m/100 + 0.15·p/100
+ 0.10·L + 0.15·V)))` with `w = 1/2` iff deprecated, `L = 0.5` iff the
license is denylisted, and `V ∈ {1, 0.6, 0.3, 0}` by worst severity. -/
def specVulnComponent (p : DependencyInfo) : ℚ :=
  if vulnList p = [] then 1
  else if (vulnList p).any (fun v => v.severity = .critical) then 0
  else if (vulnList p).any (fun v => v.severity = .high) then 3/10
  else 6/10

/-- Specification-side license component. -/
def specLicenseComponent (p : DependencyInfo) : ℚ :=
  if p.license ∈ problematicLicenses then 1/2 else 1

/-- Specification-side final integer score. -/
def specRiskScore (p : DependencyInfo) : ℤ :=
  jsRound (100 * ((if jsTruthyStr p.deprecated then (1:ℚ)/2 else 1) *
    ((35/100) * ((p.securityScore.toNumeric : ℚ) / 100)
     + (25/100) * ((p.maintenanceScore : ℚ) / 100)
     + (15/100) * ((p.popularityScore : ℚ) / 100)
     + (10/100) * specLicenseComponent p
     + (15/100) * specVulnComponent p)))

theorem countSeverity_pos_iff (vs : List VulnerabilityInfo) (s : VulnSeverity) :
    0 < countSeverity vs s ↔ vs.any (fun v => v.severity = s) = true := by
  simp [countSeverity, List.length_pos, List.any_eq_true, Ne,
    List.filter_eq_nil_iff, decide_eq_true_eq]

theorem riskVulnScore_eq_specVulnComponent (p : DependencyInfo) :
    riskVulnScore p = specVulnComponent p := by
  unfold riskVulnScore specVulnComponent
  rcases h : vulnList p with _ | ⟨v, vs⟩
  · simp
  · by_cases hc : 0 < countSeverity (v :: vs) .critical
    · have hc' := (countSeverity_pos_iff _ _).mp hc
      simp [hc, hc']
    · have hc' := hc
      rw [countSeverity_pos_iff] at hc'
      by_cases hh : 0 < countSeverity (v :: vs) .high
      · have hh' := (countSeverity_pos_iff _ _).mp hh
        simp [hc, hc', hh, hh']
      · have hh' := hh
        rw [countSeverity_pos_iff] at hh'
        simp [hc, hc', hh, hh']

/-- The claim formula agrees with the code: the code accumulates the five
weighted components and halves after summing; the spec writes it as one
closed formula. -/
theorem riskScore_weighted_formula (p : DependencyInfo) :
    (calculateRiskScore p).score = specRiskScore p := by
  unfold calculateRiskScore calculateRiskScoreRun specRiskScore riskTotal
    riskTotalBase specLicenseComponent riskLicenseScore
  rw [riskVulnScore_eq_specVulnComponent]
  by_cases hd : jsTruthyStr p.deprecated <;> simp [hd] <;> ring_nf

/-- Concrete record realizing the gap between the unrounded weighted sum and
the rounded integer score: its weighted sum is `0.7015`. -/
def cexRecordC2 : DependencyInfo :=
  { name := "left-pad"
    version := "1.3.0"
    description := "String left pad"
    license := "MIT"
    licenseProblematic := false
    homepage := "https://example.invalid"
    securityScore := .num 59
    maintenanceScore := 80
    popularityScore := 30
    daysSinceUpdate := ((10 : ℤ) : WithTop ℤ)
    lastPublishDate := "1/1/2024"
    weeklyDownloads := 20000
    minifiedSize := 5
    gzipSize := 2
    hasVulnerabilities := false
    dependencyCount := 0
    peerDependencies := [] }

/-- The scorer classifies via the unrounded sum: this record gets risk level
`Low` with integer score exactly `70`, contradicting `Low ↔ score > 70`. -/
theorem riskLevel_unrounded_cex :
    (calculateRiskScore cexRecordC2).riskLevel = RiskLevel.low ∧
    (calculateRiskScore cexRecordC2).score = 70 := by
  have hmit : ("MIT" ∈ problematicLicenses) = False := by
    simp only [eq_iff_iff, iff_false]
    decide
  constructor
  · norm_num [calculateRiskScore, calculateRiskScoreRun, riskTotal, riskTotalBase,
      riskLicenseScore, riskVulnScore, vulnList, SecurityScore.toNumeric,
      hmit, jsTruthyStr, cexRecordC2]
  · norm_num [calculateRiskScore, calculateRiskScoreRun, riskTotal, riskTotalBase,
      riskLicenseScore, riskVulnScore, vulnList, SecurityScore.toNumeric,
      hmit, jsTruthyStr, jsRound, cexRecordC2, Int.floor_eq_iff]

theorem riskLicenseScore_bounds (p : DependencyInfo) :
    0 ≤ riskLicenseScore p ∧ riskLicenseScore p ≤ 1 := by
  unfold riskLicenseScore
  split_ifs <;> norm_num

theorem riskVulnScore_bounds (p : DependencyInfo) :
    0 ≤ riskVulnScore p ∧ riskVulnScore p ≤ 1 := by
  unfold riskVulnScore
  split_ifs <;> norm_num

theorem riskTotalBase_bounds (p : DependencyInfo)
    (hs0 : 0 ≤ p.securityScore.toNumeric) (hs1 : p.securityScore.toNumeric ≤ 100)
    (hm0 : 0 ≤ p.maintenanceScore) (hm1 : p.maintenanceScore ≤ 100)
    (hp0 : 0 ≤ p.popularityScore) (hp1 : p.popularityScore ≤ 100) :
    0 ≤ riskTotalBase p ∧ riskTotalBase p ≤ 1 := by
  obtain ⟨hl0, hl1⟩ := riskLicenseScore_bounds p
  obtain ⟨hv0, hv1⟩ := riskVulnScore_bounds p
  have hs0' : (0 : ℚ) ≤ (p.securityScore.toNumeric : ℚ) := by exact_mod_cast hs0
  have hs1' : (p.securityScore.toNumeric : ℚ) ≤ 100 := by exact_mod_cast hs1
  have hm0' : (0 : ℚ) ≤ (p.maintenanceScore : ℚ) := by exact_mod_cast hm0
  have hm1' : (p.maintenanceScore : ℚ) ≤ 100 := by exact_mod_cast hm1
  have hp0' : (0 : ℚ) ≤ (p.popularityScore : ℚ) := by exact_mod_cast hp0
  have hp1' : (p.popularityScore : ℚ) ≤ 100 := by exact_mod_cast hp1
  unfold riskTotalBase
  constructor <;> nlinarith

theorem riskTotal_bounds (p : DependencyInfo)
    (hs0 : 0 ≤ p.securityScore.toNumeric) (hs1 : p.securityScore.toNumeric ≤ 100)
    (hm0 : 0 ≤ p.maintenanceScore) (hm1 : p.maintenanceScore ≤ 100)
    (hp0 : 0 ≤ p.popularityScore) (hp1 : p.popularityScore ≤ 100) :
    0 ≤ riskTotal p ∧ riskTotal p ≤ 1 := by
  obtain ⟨h0, h1⟩ := riskTotalBase_bounds p hs0 hs1 hm0 hm1 hp0 hp1
  unfold riskTotal
  split_ifs <;> constructor <;> linarith

/-- Amended invariant: for in-range component scores the integer score lies
in `[0, 100]`, and the risk level is determined by the fixed thresholds
applied to the unrounded weighted sum `riskTotal` (not to the rounded
integer score).  Consequently `Low` guarantees only `score ≥ 70` (witness
`riskLevel_unrounded_cex` attains `Low` at score exactly `70`), `Medium`
guarantees `40 ≤ score ≤ 70`, and `High` guarantees `score ≤ 40`. -/
theorem riskLevel_thresholds (p : DependencyInfo)
    (hs0 : 0 ≤ p.securityScore.toNumeric) (hs1 : p.securityScore.toNumeric ≤ 100)
    (hm0 : 0 ≤ p.maintenanceScore) (hm1 : p.maintenanceScore ≤ 100)
    (hp0 : 0 ≤ p.popularityScore) (hp1 : p.popularityScore ≤ 100) :
    0 ≤ (calculateRiskScore p).score ∧ (calculateRiskScore p).score ≤ 100 ∧
    ((calculateRiskScore p).riskLevel = RiskLevel.low ↔ 7/10 < riskTotal p) ∧
    ((calculateRiskScore p).riskLevel = RiskLevel.medium ↔
      4/10 < riskTotal p ∧ riskTotal p ≤ 7/10) ∧
    ((calculateRiskScore p).riskLevel = RiskLevel.high ↔ riskTotal p ≤ 4/10) ∧
    ((calculateRiskScore p).riskLevel = RiskLevel.low →
      70 ≤ (calculateRiskScore p).score) ∧
    ((calculateRiskScore p).riskLevel = RiskLevel.medium →
      40 ≤ (calculateRiskScore p).score ∧ (calculateRiskScore p).score ≤ 70) ∧
    ((calculateRiskScore p).riskLevel = RiskLevel.high →
      (calculateRiskScore p).score ≤ 40) := by
  obtain ⟨h0, h1⟩ := riskTotal_bounds p hs0 hs1 hm0 hm1 hp0 hp1
  have hscore : (calculateRiskScore p).score = ⌊riskTotal p * 100 + 1/2⌋ := rfl
  have hlevel : (calculateRiskScore p).riskLevel =
      (if riskTotal p > 7/10 then RiskLevel.low
       else if riskTotal p > 4/10 then RiskLevel.medium else RiskLevel.high) := rfl
  refine ⟨?_, ?_, ?_, ?_, ?_, ?_, ?_, ?_⟩
  · rw [hscore]
    exact Int.le_floor.mpr (by push_cast; linarith)
  · rw [hscore]
    have : (⌊riskTotal p * 100 + 1/2⌋ : ℤ) < 101 :=
      Int.floor_lt.mpr (by push_cast; linarith)
    omega
  · rw [hlevel]; split_ifs with h4 h7 <;> simp_all <;> linarith
  · rw [hlevel]; split_ifs with h4 h7 <;> simp_all <;> intro h <;> linarith
  · rw [hlevel]; split_ifs with h4 h7 <;> simp_all <;> linarith
  · rw [hlevel, hscore]; split_ifs with h4 h7 <;> intro hL
    · exact Int.le_floor.mpr (by push_cast; linarith)
    · simp_all
    · simp_all
  · rw [hlevel, hscore]; split_ifs with h4 h7 <;> intro hL
    · simp_all
    · constructor
      · exact Int.le_floor.mpr (by push_cast; linarith)
      · have : (⌊riskTotal p * 100 + 1/2⌋ : ℤ) < 71 :=
          Int.floor_lt.mpr (by push_cast; linarith)
        omega
    · simp_all
  · rw [hlevel, hscore]; split_ifs with h4 h7 <;> intro hL
    · simp_all
    · simp_all
    · have : (⌊riskTotal p * 100 + 1/2⌋ : ℤ) < 41 :=
        Int.floor_lt.mpr (by push_cast; linarith)
      omega

theorem riskLevel_thresholds_witness :
    0 ≤ (calculateRiskScore cexRecordC2).score ∧
    (calculateRiskScore cexRecordC2).score ≤ 100 ∧
    ((calculateRiskScore cexRecordC2).riskLevel = RiskLevel.low ↔
      7/10 < riskTotal cexRecordC2) ∧
    ((calculateRiskScore cexRecordC2).riskLevel = RiskLevel.medium ↔
      4/10 < riskTotal cexRecordC2 ∧ riskTotal cexRecordC2 ≤ 7/10) ∧
    ((calculateRiskScore cexRecordC2).riskLevel = RiskLevel.high ↔
      riskTotal cexRecordC2 ≤ 4/10) ∧
    ((calculateRiskScore cexRecordC2).riskLevel = RiskLevel.low →
      70 ≤ (calculateRiskScore cexRecordC2).score) ∧
    ((calculateRiskScore cexRecordC2).riskLevel = RiskLevel.medium →
      40 ≤ (calculateRiskScore cexRecordC2).score ∧
      (calculateRiskScore cexRecordC2).score ≤ 70) ∧
    ((calculateRiskScore cexRecordC2).riskLevel = RiskLevel.high →
      (calculateRiskScore cexRecordC2).score ≤ 40) :=
  riskLevel_thresholds cexRecordC2 (by decide) (by decide) (by decide)
    (by decide) (by decide) (by decide)

/-- Deprecated record whose undeprecated weighted sum is `0.514`: the
undeprecated integer score is `51` (odd), the deprecated one is `26`. -/
def cexRecordC3 : DependencyInfo :=
  { name := "request"
    version := "2.88.2"
    description := "Simplified HTTP request client"
    license := "MIT"
    licenseProblematic := false
    homepage := ""
    securityScore := .num 4
    maintenanceScore := 100
    popularityScore := 0
    daysSinceUpdate := ((40 : ℤ) : WithTop ℤ)
    lastPublishDate := "1/1/2024"
    weeklyDownloads := 50
    minifiedSize := 20
    gzipSize := 8
    hasVulnerabilities := false
    dependencyCount := 0
    peerDependencies := []
    deprecated := some "request has been deprecated" }

/-- The same record with the deprecation notice removed. -/
def cexRecordC3undep : DependencyInfo := { cexRecordC3 with deprecated := Option.none }

/-- The deprecated score is not exactly half of the undeprecated score:
here the pair is `(26, 51)`, and no integer is half of `51` (nor is `26`
the rounded-down half). -/
theorem deprecated_halving_cex :
    (calculateRiskScore cexRecordC3).score = 26 ∧
    (calculateRiskScore cexRecordC3undep).score = 51 ∧
    2 * (calculateRiskScore cexRecordC3).score ≠
      (calculateRiskScore cexRecordC3undep).score := by
  have hmit : ("MIT" ∈ problematicLicenses) = False := eq_false (by decide)
  have hstr : ("request has been deprecated" = "") = False := eq_false (by decide)
  refine ⟨?_, ?_, ?_⟩
  · norm_num [calculateRiskScore, calculateRiskScoreRun, riskTotal, riskTotalBase,
      riskLicenseScore, riskVulnScore, vulnList, SecurityScore.toNumeric,
      hmit, hstr, jsTruthyStr, jsRound, cexRecordC3, Int.floor_eq_iff]
  · norm_num [calculateRiskScore, calculateRiskScoreRun, riskTotal, riskTotalBase,
      riskLicenseScore, riskVulnScore, vulnList, SecurityScore.toNumeric,
      hmit, hstr, jsTruthyStr, jsRound, cexRecordC3undep, cexRecordC3, Int.floor_eq_iff]
  · norm_num [calculateRiskScore, calculateRiskScoreRun, riskTotal, riskTotalBase,
      riskLicenseScore, riskVulnScore, vulnList, SecurityScore.toNumeric,
      hmit, hstr, jsTruthyStr, jsRound, cexRecordC3undep, cexRecordC3, Int.floor_eq_iff]

/-- Replacing the deprecation notice leaves the pre-penalty weighted sum
unchanged (it reads none of the deprecation data). -/
theorem riskTotalBase_deprecated_irrelevant (p : DependencyInfo) :
    riskTotalBase { p with deprecated := Option.none } = riskTotalBase p := rfl

/-- Amended halving rule: deprecation halves the weighted sum before
rounding.  The deprecated integer score is the rounding of half the
undeprecated sum (times 100), hence within one of, but not always equal to,
half the undeprecated integer score. -/
theorem deprecated_halves_weighted_sum (p : DependencyInfo)
    (h : jsTruthyStr p.deprecated = true) :
    riskTotal p = riskTotal { p with deprecated := Option.none } / 2 ∧
    (calculateRiskScore p).score =
      jsRound (riskTotal { p with deprecated := Option.none } / 2 * 100) ∧
    (calculateRiskScore { p with deprecated := Option.none }).score =
      jsRound (riskTotal { p with deprecated := Option.none } * 100) ∧
    (calculateRiskScore { p with deprecated := Option.none }).score - 1 ≤
      2 * (calculateRiskScore p).score ∧
    2 * (calculateRiskScore p).score ≤
      (calculateRiskScore { p with deprecated := Option.none }).score + 1 := by
  have hu : riskTotal { p with deprecated := Option.none } = riskTotalBase p := by
    unfold riskTotal
    rw [riskTotalBase_deprecated_irrelevant]
    simp [jsTruthyStr]
  have hd : riskTotal p = riskTotalBase p * (1/2) := by
    unfold riskTotal
    rw [h]
    simp
  have hsd : (calculateRiskScore p).score = ⌊riskTotal p * 100 + 1/2⌋ := rfl
  have hsu : (calculateRiskScore { p with deprecated := Option.none }).score =
      ⌊riskTotal { p with deprecated := Option.none } * 100 + 1/2⌋ := rfl
  refine ⟨by rw [hu, hd]; ring, ?_, ?_, ?_, ?_⟩
  · rw [hsd, hu, hd, jsRound]
    ring_nf
  · rw [hsu, jsRound]
  · rw [hsd, hsu, hu, hd]
    set b : ℚ := riskTotalBase p with hb
    have h1 : (⌊b * (1/2) * 100 + 1/2⌋ : ℚ) > b * (1/2) * 100 + 1/2 - 1 := by
      have := Int.lt_floor_add_one (b * (1/2) * 100 + 1/2)
      linarith
    have h2 : (⌊b * 100 + 1/2⌋ : ℚ) ≤ b * 100 + 1/2 := Int.floor_le _
    have : (⌊b * 100 + 1/2⌋ : ℚ) - 1 < 2 * ⌊b * (1/2) * 100 + 1/2⌋ + 1 := by
      linarith
    have hz : (⌊b * 100 + 1/2⌋ : ℤ) - 1 < 2 * ⌊b * (1/2) * 100 + 1/2⌋ + 1 := by
      exact_mod_cast this
    omega
  · rw [hsd, hsu, hu, hd]
    set b : ℚ := riskTotalBase p with hb
    have h1 : (⌊b * (1/2) * 100 + 1/2⌋ : ℚ) ≤ b * (1/2) * 100 + 1/2 := Int.floor_le _
    have h2 : (⌊b * 100 + 1/2⌋ : ℚ) > b * 100 + 1/2 - 1 := by
      have := Int.lt_floor_add_one (b * 100 + 1/2)
      linarith
    have : (2 * ⌊b * (1/2) * 100 + 1/2⌋ : ℚ) < ⌊b * 100 + 1/2⌋ + 1 + 1 := by
      linarith
    have hz : (2 * ⌊b * (1/2) * 100 + 1/2⌋ : ℤ) < ⌊b * 100 + 1/2⌋ + 1 + 1 := by
      exact_mod_cast this
    omega

theorem deprecated_halves_weighted_sum_witness :
    riskTotal cexRecordC3 =
      riskTotal { cexRecordC3 with deprecated := Option.none } / 2 ∧
    (calculateRiskScore cexRecordC3).score =
      jsRound (riskTotal { cexRecordC3 with deprecated := Option.none } / 2 * 100) ∧
    (calculateRiskScore { cexRecordC3 with deprecated := Option.none }).score =
      jsRound (riskTotal { cexRecordC3 with deprecated := Option.none } * 100) ∧
    (calculateRiskScore { cexRecordC3 with deprecated := Option.none }).score - 1 ≤
      2 * (calculateRiskScore cexRecordC3).score ∧
    2 * (calculateRiskScore cexRecordC3).score ≤
      (calculateRiskScore { cexRecordC3 with deprecated := Option.none }).score + 1 :=
  deprecated_halves_weighted_sum cexRecordC3 (by decide)

/-- Record whose `hasVulnerabilities` flag disagrees with its vulnerability
list: the scorer overwrites the flag. -/
def cexRecordC5 : DependencyInfo :=
  { name := "lodash"
    version := "4.17.20"
    description := "Lodash modular utilities"
    license := "MIT"
    licenseProblematic := false
    homepage := ""
    securityScore := .num 80
    maintenanceScore := 90
    popularityScore := 100
    daysSinceUpdate := ((100 : ℤ) : WithTop ℤ)
    lastPublishDate := "1/1/2024"
    weeklyDownloads := 1000000
    minifiedSize := 70
    gzipSize := 25
    hasVulnerabilities := false
    dependencyCount := 0
    peerDependencies := []
    vulnerabilities := some [{ id := "GHSA-p6mc-m468-83gw", severity := .moderate }] }

/-- The scorer is not free of effects on its input: on a record whose
vulnerability list is non-empty it sets `hasVulnerabilities` to `true`,
here changing it from `false`. -/
theorem scorer_mutation_cex :
    cexRecordC5.hasVulnerabilities = false ∧
    ((calculateRiskScoreRun cexRecordC5).2).hasVulnerabilities = true := by
  constructor
  · rfl
  · rfl

theorem calculateRiskScoreRun_snd (p : DependencyInfo) :
    (calculateRiskScoreRun p).2 =
      { p with hasVulnerabilities :=
          p.hasVulnerabilities || !(vulnList p).isEmpty } := by
  unfold calculateRiskScoreRun
  rcases h : vulnList p with _ | ⟨v, vs⟩ <;> simp [h]

/-- Amended frame property: the call mutates exactly one field — it ORs
`hasVulnerabilities` with the non-emptiness of the vulnerability list — and
is otherwise a deterministic pure function of the record. -/
theorem scorer_frame (p : DependencyInfo) :
    (calculateRiskScoreRun p).2 =
      { p with hasVulnerabilities :=
          p.hasVulnerabilities || !(vulnList p).isEmpty } ∧
    (calculateRiskScoreRun p).1 = calculateRiskScore p :=
  ⟨calculateRiskScoreRun_snd p, rfl⟩

/-- Ascending stable-sort relation induced by a numeric comparator
`(a, b) => key a - key b`. -/
def byKeyAsc {α : Type*} {β : Type*} [LinearOrder β] (k : α → β) : α → α → Prop :=
  fun a b => k a ≤ k b

instance {α : Type*} {β : Type*} [LinearOrder β] (k : α → β) :
    DecidableRel (byKeyAsc k) :=
  fun a b => inferInstanceAs (Decidable (k a ≤ k b))

instance {α : Type*} {β : Type*} [LinearOrder β] (k : α → β) :
    IsTotal α (byKeyAsc k) :=
  ⟨fun a b => le_total (k a) (k b)⟩

instance {α : Type*} {β : Type*} [LinearOrder β] (k : α → β) :
    IsTrans α (byKeyAsc k) :=
  ⟨fun _ _ _ hab hbc => le_trans hab hbc⟩

/-- Descending stable-sort relation induced by `(a, b) => key b - key a`. -/
def byKeyDesc {α : Type*} {β : Type*} [LinearOrder β] (k : α → β) : α → α → Prop :=
  fun a b => k b ≤ k a

instance {α : Type*} {β : Type*} [LinearOrder β] (k : α → β) :
    DecidableRel (byKeyDesc k) :=
  fun a b => inferInstanceAs (Decidable (k b ≤ k a))

instance {α : Type*} {β : Type*} [LinearOrder β] (k : α → β) :
    IsTotal α (byKeyDesc k) :=
  ⟨fun a b => (le_total (k a) (k b)).symm⟩

instance {α : Type*} {β : Type*} [LinearOrder β] (k : α → β) :
    IsTrans α (byKeyDesc k) :=
  ⟨fun _ _ _ hab hbc => le_trans hbc hab⟩

/-- JS `d.risk?.score || dflt` (`undefined` and a zero score fall through). -/
def jsRiskOr (dflt : ℤ) (d : DependencyInfo) : ℤ :=
  match d.risk with
  | some r => if r.score = 0 then dflt else r.score
  | none => dflt

/-- One analyzed package of the aggregate (`PackageData` in `types.ts`). -/
structure PackageData where
  packageName : Option String := Option.none
  packagePath : Option String := Option.none
  dependencies : List DependencyInfo
  devDependencies : List DependencyInfo
deriving DecidableEq

/-- One entry of the outdated-package map (`name → {current, wanted,
latest, location}`). -/
structure OutdatedInfo where
  current : String
  wanted : String
  latest : String
  location : String
deriving DecidableEq, Repr

/-- Audit metadata vulnerability tallies (only field of `auditData` the
insights pass reads). -/
structure AuditVulnCounts where
  info : ℤ
  low : ℤ
  moderate : ℤ
  high : ℤ
  critical : ℤ
deriving DecidableEq, Repr

/-- Audit feed as consumed by `generateInsights`. -/
structure AuditData where
  metadataVulnerabilities : Option AuditVulnCounts := Option.none
deriving DecidableEq, Repr

/-- `topRisks` entry. -/
structure TopRiskEntry where
  name : String
  score : ℤ
  factors : List String
deriving DecidableEq, Repr

/-- `heaviestDependencies` entry. -/
structure HeavyEntry where
  name : String
  size : ℤ
  gzipSize : ℤ
deriving DecidableEq, Repr

/-- `quickWins` entry as emitted. -/
structure QuickWinEntry where
  name : String
  current : String
  latest : String
  securityScore : SecurityScore
deriving DecidableEq, Repr

/-- Intermediate quick-win candidate before the final projection
(carries the numeric sort keys). -/
structure QuickWinCandidate where
  name : String
  current : String
  latest : String
  securityScore : SecurityScore
  numericScore : ℤ
  risk : ℤ
deriving DecidableEq, Repr

/-- `licenseIssues` entry. -/
structure LicenseIssueEntry where
  name : String
  license : String
deriving DecidableEq, Repr

/-- `abandonedPackages` entry. -/
structure AbandonedEntry where
  name : String
  lastUpdate : String
  daysSince : WithTop ℤ
deriving DecidableEq

/-- `deprecatedPackages` entry. -/
structure DeprecatedEntry where
  name : String
  version : String
  reason : String
deriving DecidableEq, Repr

/-- Vulnerability severity histogram. -/
structure VulnerabilitySummary where
  total : ℕ
  critical : ℕ
  high : ℕ
  moderate : ℕ
  low : ℕ
  packagesAffected : ℕ
deriving DecidableEq, Repr

/-- Summary metrics. -/
structure InsightMetrics where
  totalDependencies : ℕ
  productionDependencies : ℕ
  devDependencies : ℕ
  averageSecurityScore : ℤ
  vulnerabilities : Option AuditVulnCounts := Option.none
deriving DecidableEq, Repr

/-- The aggregated insights (`SBOMInsights` in `types.ts`). -/
structure SBOMInsights where
  topRisks : List TopRiskEntry
  heaviestDependencies : List HeavyEntry
  quickWins : List QuickWinEntry
  totalBundleSize : ℤ
  licenseIssues : List LicenseIssueEntry
  abandonedPackages : List AbandonedEntry
  deprecatedPackages : List DeprecatedEntry
  vulnerabilitySummary : VulnerabilitySummary
  metrics : InsightMetrics
deriving DecidableEq

/-- Flattening of all production and development records across packages,
in package order (`allDeps` in `generateInsights`). -/
def allDepsOf (packages : List PackageData) : List DependencyInfo :=
  packages.foldr (fun pkg acc => pkg.dependencies ++ pkg.devDependencies ++ acc) []

/-- Quick-win candidates: outdated-map entries joined (by `find`) with the
analyzed records, unmatched names dropped. -/
def quickWinCandidates (allDeps : List DependencyInfo)
    (m : List (String × OutdatedInfo)) : List QuickWinCandidate :=
  m.filterMap (fun e =>
    match allDeps.find? (fun d => d.name = e.1) with
    | some dep =>
        some ⟨e.1, e.2.current, e.2.latest, dep.securityScore,
          dep.securityScore.toNumeric, jsRiskOr 0 dep⟩
    | none => Option.none)

/-- Comparator of the quick-win sort: ascending numeric security score,
ties broken by ascending risk score. -/
def qwRel (a b : QuickWinCandidate) : Prop :=
  a.numericScore < b.numericScore ∨
    (a.numericScore = b.numericScore ∧ a.risk ≤ b.risk)

instance : DecidableRel qwRel := fun a b => by
  unfold qwRel
  infer_instance

instance : IsTotal QuickWinCandidate qwRel := ⟨by
  intro a b
  unfold qwRel
  omega⟩

instance : IsTrans QuickWinCandidate qwRel := ⟨by
  intro a b c hab hbc
  unfold qwRel at hab hbc ⊢
  omega⟩

/-- Final projection of a sorted quick-win candidate. -/
def quickWinProject (c : QuickWinCandidate) : QuickWinEntry :=
  ⟨c.name, c.current, c.latest, c.securityScore⟩

/-- The `quickWins` insight: empty without a non-empty outdated map,
otherwise the first ten candidates in comparator order. -/
def quickWinsOf (allDeps : List DependencyInfo)
    (outdated : Option (List (String × OutdatedInfo))) : List QuickWinEntry :=
  match outdated with
  | some m =>
    if m.length > 0 then
      ((List.insertionSort qwRel (quickWinCandidates allDeps m)).take 10).map
        quickWinProject
    else []
  | none => []

/-- The insights aggregation pass (`generateInsights`), over the flattened
record set. -/
def generateInsights (packages : List PackageData)
    (outdatedPackages : Option (List (String × OutdatedInfo)))
    (auditData : Option AuditData) : SBOMInsights :=
  let allDeps := allDepsOf packages
  let allVulns := (allDeps.map vulnList).foldr (· ++ ·) []
  { topRisks :=
      ((List.insertionSort (byKeyAsc (jsRiskOr 100))
          (allDeps.filter (fun d =>
            match d.risk with
            | some r => r.score < 70
            | none => false))).take 10).map
        (fun d => ⟨d.name, (d.risk.map (fun r => r.score)).getD 0,
          (d.risk.map (fun r => r.factors)).getD []⟩)
    heaviestDependencies :=
      ((((List.insertionSort (byKeyDesc (fun d => d.minifiedSize)) allDeps)).filter
          (fun d => d.minifiedSize > 0)).take 10).map
        (fun d => ⟨d.name, d.minifiedSize, d.gzipSize⟩)
    quickWins := quickWinsOf allDeps outdatedPackages
    totalBundleSize := (allDeps.map (fun d => d.minifiedSize)).sum
    licenseIssues :=
      (allDeps.filter (fun d => d.licenseProblematic)).map
        (fun d => ⟨d.name, d.license⟩)
    abandonedPackages :=
      ((List.insertionSort (byKeyDesc (fun d => d.daysSinceUpdate))
          (allDeps.filter (fun d => ((730 : ℤ) : WithTop ℤ) < d.daysSinceUpdate))).take
        10).map (fun d => ⟨d.name, d.lastPublishDate, d.daysSinceUpdate⟩)
    deprecatedPackages :=
      (allDeps.filter (fun d => jsTruthyStr d.deprecated)).map
        (fun d => ⟨d.name, d.version,
          match d.deprecated with
          | some s => s
          | none => "Package is deprecated"⟩)
    vulnerabilitySummary :=
      { total := allVulns.length
        critical := countSeverity allVulns .critical
        high := countSeverity allVulns .high
        moderate := countSeverity allVulns .moderate
        low := countSeverity allVulns .low
        packagesAffected :=
          (allDeps.filter (fun d => (vulnList d).length > 0)).length }
    metrics :=
      { totalDependencies := allDeps.length
        productionDependencies :=
          (packages.map (fun p => p.dependencies.length)).sum
        devDependencies :=
          (packages.map (fun p => p.devDependencies.length)).sum
        averageSecurityScore :=
          jsRound (((allDeps.map
              (fun d => d.securityScore.toNumeric)).sum : ℚ) /
            (if allDeps.length = 0 then 1 else (allDeps.length : ℚ)))
        vulnerabilities :=
          match auditData with
          | some a => a.metadataVulnerabilities
          | none => Option.none } }

theorem quickWinCandidates_names (allDeps : List DependencyInfo)
    (m : List (String × OutdatedInfo)) :
    (quickWinCandidates allDeps m).map (fun c => c.name) =
      (m.filter (fun e =>
        ((allDeps.find? (fun d => d.name = e.1)).isSome))).map Prod.fst := by
  induction m with
  | nil => rfl
  | cons e t ih =>
      unfold quickWinCandidates at ih ⊢
      cases h : allDeps.find? (fun d => d.name = e.1) with
      | some dep => simp [List.filterMap_cons, List.filter_cons, h, ih]
      | none => simp [List.filterMap_cons, List.filter_cons, h, ih]

/-- The `quickWins` insight is empty when the outdated map is absent, and
otherwise is the ≤ 10-element prefix of the stable sort (ascending numeric
security score, ties by ascending risk score) of exactly those outdated
entries whose name matches an analyzed record. -/
theorem quickWins_outdated_join_sorted (packages : List PackageData)
    (audit : Option AuditData) :
    (generateInsights packages Option.none audit).quickWins = [] ∧
    (∀ m : List (String × OutdatedInfo),
      (generateInsights packages (some m) audit).quickWins =
        ((List.insertionSort qwRel
            (quickWinCandidates (allDepsOf packages) m)).take 10).map
          quickWinProject) ∧
    (∀ m : List (String × OutdatedInfo),
      (List.insertionSort qwRel (quickWinCandidates (allDepsOf packages) m)).Perm
        (quickWinCandidates (allDepsOf packages) m)) ∧
    (∀ m : List (String × OutdatedInfo),
      (List.insertionSort qwRel
        (quickWinCandidates (allDepsOf packages) m)).Sorted qwRel) ∧
    (∀ m : List (String × OutdatedInfo),
      (quickWinCandidates (allDepsOf packages) m).map (fun c => c.name) =
        (m.filter (fun e =>
          (((allDepsOf packages).find? (fun d => d.name = e.1)).isSome))).map
          Prod.fst) := by
  refine ⟨rfl, ?_, ?_, ?_, ?_⟩
  · intro m
    cases m with
    | nil => simp [generateInsights, quickWinsOf, quickWinCandidates]
    | cons e t => simp [generateInsights, quickWinsOf]
  · intro m
    exact List.perm_insertionSort qwRel _
  · intro m
    exact List.sorted_insertionSort qwRel _
  · intro m
    exact quickWinCandidates_names _ m

/-- Specification-side mean security score: `0` on an empty record set,
otherwise the rounded mean. -/
def specAverageSecurity (allDeps : List DependencyInfo) : ℤ :=
  if allDeps = [] then 0
  else jsRound (((allDeps.map (fun d => d.securityScore.toNumeric)).sum : ℚ) /
    (allDeps.length : ℚ))

/-- The emitted average equals the guarded mean: `'N/A'` counts as `0`
via `SecurityScore.toNumeric`, and the empty set yields `0` (the divisor
falls back to `1`, so no division by zero occurs). -/
theorem averageSecurityScore_guarded (packages : List PackageData)
    (outdated : Option (List (String × OutdatedInfo)))
    (audit : Option AuditData) :
    SecurityScore.na.toNumeric = 0 ∧
    (generateInsights packages outdated audit).metrics.averageSecurityScore =
      specAverageSecurity (allDepsOf packages) := by
  refine ⟨rfl, ?_⟩
  unfold generateInsights specAverageSecurity
  by_cases h : allDepsOf packages = []
  · simp only [h]
    norm_num [jsRound]
  · have hlen : (allDepsOf packages).length ≠ 0 := by
      simpa [List.length_eq_zero] using h
    simp only [h, hlen, if_false, if_neg hlen]

/-- `String.prototype.startsWith`, on the character lists. -/
def strStartsWith (s pre : String) : Bool := pre.toList.isPrefixOf s.toList

/-- Characters stripped by `version.replace(/^[\^~>=<\s]+/, '')`. -/
def stripRangeChar (c : Char) : Bool :=
  c == '^' || c == '~' || c == '>' || c == '=' || c == '<' || c.isWhitespace

/-- Leading range-operator characters stripped from a declared version. -/
def stripRange (v : String) : String := ⟨v.toList.dropWhile stripRangeChar⟩

/-- Engine configuration (`SBOMConfig`, with the defaults of
`DEFAULT_CONFIG`); only the options the modelled code branches on are
retained. -/
structure SBOMConfig where
  includeDevDeps : Bool := true
  includeBundleSize : Bool := true
  includeVulnerabilities : Bool := true
  includeTransitiveDeps : Bool := false
  maxConcurrentRequests : ℕ := 5
  retryAttempts : ℕ := 3
  retryDelay : ℕ := 1000
deriving DecidableEq, Repr

/-- Per-version `dist` information from the registry. -/
structure DistInfo where
  integrity : Option String := Option.none
  shasum : Option String := Option.none
deriving DecidableEq, Repr

/-- One version entry of the registry document (fields the engine reads). -/
structure VersionData where
  dist : Option DistInfo := Option.none
  deprecated : Option String := Option.none
  dependencies : List (String × String) := []
  peerDependencies : List (String × String) := []
deriving DecidableEq, Repr

/-- `author` field of the registry document: a plain string or an object. -/
inductive AuthorInfo where
  | str (s : String)
  | obj (name : Option String) (email : Option String) (url : Option String)
deriving DecidableEq, Repr

/-- One `maintainers` entry. -/
structure MaintainerInfo where
  name : Option String := Option.none
  email : Option String := Option.none
deriving DecidableEq, Repr

/-- Registry metadata document (fields of the npm JSON the engine reads;
publish timestamps are epoch milliseconds). -/
structure NpmData where
  description : Option String := Option.none
  license : Option String := Option.none
  homepage : Option String := Option.none
  repositoryUrl : Option String := Option.none
  timeModified : Option ℚ := Option.none
  timeCreated : Option ℚ := Option.none
  distTagLatest : Option String := Option.none
  versions : List (String × VersionData) := []
  author : Option AuthorInfo := Option.none
  maintainers : List MaintainerInfo := []
deriving DecidableEq, Repr

/-- Settled results of the five provider calls for one declaration, after
retries: a provider that still failed yields its sentinel (`none`, `'N/A'`,
`{score: 0, downloads: 0}`, `[]` respectively). -/
structure ProviderResults where
  npmData : Option NpmData
  securityScore : SecurityScore
  bundleSize : Option (ℤ × ℤ)
  popularity : ℤ × ℤ
  vulns : List VulnerabilityInfo
deriving DecidableEq, Repr

/-- `getBundleSize` returns `null` immediately when disabled. -/
def getBundleSizeModel (cfg : SBOMConfig) (r : ProviderResults) : Option (ℤ × ℤ) :=
  if cfg.includeBundleSize then r.bundleSize else Option.none

/-- `getVulnerabilities` returns `[]` immediately when disabled. -/
def getVulnerabilitiesModel (cfg : SBOMConfig) (r : ProviderResults) :
    List VulnerabilityInfo :=
  if cfg.includeVulnerabilities then r.vulns else []

/-- `KnownUnknown` category enum. -/
inductive KUCategory where
  | unknown
  | redacted
  | not_applicable
  | fetch_failed
deriving DecidableEq, Repr

/-- A declared dependency that could not be analyzed. -/
structure KnownUnknown where
  name : String
  version : String
  reason : String
  category : KUCategory
deriving DecidableEq, Repr

/-- `extractSupplier`: author (string or object) first, then the first
maintainer, else nothing. -/
def extractSupplier (npm : NpmData) : Option SupplierInfo :=
  match npm.author with
  | some (.str s) => some ⟨s, Option.none, Option.none⟩
  | some (.obj n e u) => some ⟨jsOrString n "Unknown", e, u⟩
  | none =>
    match npm.maintainers with
    | [] => Option.none
    | m :: _ => some ⟨jsOrString m.name "Unknown", m.email, Option.none⟩

/-- `extractHashes`: integrity digest and legacy shasum of a version's
`dist` block, absent when the block is missing. -/
def extractHashes (vd : Option VersionData) : Option String × Option String :=
  match vd with
  | some v =>
    match v.dist with
    | some di => (di.integrity, di.shasum)
    | none => (Option.none, Option.none)
  | none => (Option.none, Option.none)

/-- `calculateMaintenanceScore`: start at 100, staleness deductions, version
count bonus, clamp to `[0, 100]`.  A missing publish timestamp makes every
staleness comparison false (`NaN` in the source), so no deduction applies. -/
def calculateMaintenanceScore (now : ℚ) (npm : NpmData) : ℤ :=
  let lastPublish := npm.timeModified <|> npm.timeCreated
  let deduction : ℤ :=
    match lastPublish with
    | some t =>
      if (now - t) / 86400000 > 365 then 20
      else if (now - t) / 86400000 > 180 then 10
      else if (now - t) / 86400000 > 90 then 5
      else 0
    | none => 0
  let bonus : ℤ :=
    if npm.versions.length > 50 then 10
    else if npm.versions.length > 20 then 5
    else 0
  max 0 (min 100 (100 - deduction + bonus))

/-- Lookup of `npmData.versions[v]`. -/
def findVersion (versions : List (String × VersionData)) (v : String) :
    Option VersionData :=
  (versions.find? (fun e => e.1 = v)).map Prod.snd

/-- `convertToKb`: `Math.round(bytes / 1024)`. -/
def convertToKb (bytes : ℚ) : ℤ := jsRound (bytes / 1024)

/-- `bundleSize?.size && !name.startsWith('@types') ? bundleSize.size : 0`:
the byte count survives only when present, non-zero, and the package is not
a `@types` one. -/
def bundleComponent (name : String) (v : Option ℤ) : ℚ :=
  match v with
  | some b => if b ≠ 0 ∧ ¬ strStartsWith name "@types" then (b : ℚ) else 0
  | none => 0

/-- Abstract rendering of `new Date(t).toLocaleDateString()` (the locale
formatting itself is environment-dependent; only a deterministic rendering
of the timestamp is modelled). -/
def dateRender (t : ℚ) : String := "locale-date:" ++ toString t

/-- Record construction for one declaration whose registry-metadata call
succeeded: normalization of the settled provider results plus attachment of
the risk assessment, mirroring the body of the `analyzeDependencies` task.
Returns the record and the optional outdated-map entry. -/
def analyzeRecord (now : ℚ) (cfg : SBOMConfig) (name version : String)
    (r : ProviderResults) (npm : NpmData) :
    DependencyInfo × Option (String × OutdatedInfo) :=
  let lastPublish := npm.timeModified <|> npm.timeCreated
  let daysSinceUpdate : WithTop ℤ :=
    match lastPublish with
    | some t => ((jsRound ((now - t) / 86400000) : ℤ) : WithTop ℤ)
    | none => ⊤
  let license := jsOrString npm.license "Unknown"
  let latestVersion := jsOrString npm.distTagLatest version
  let currentVersion := stripRange version
  let currentVersionData := findVersion npm.versions currentVersion
  let latestVersionData := findVersion npm.versions latestVersion
  let outdatedEntry : Option (String × OutdatedInfo) :=
    if latestVersion ≠ currentVersion ∧ jsTruthyStr npm.distTagLatest then
      some (name, ⟨currentVersion, currentVersion, latestVersion, name⟩)
    else Option.none
  let hashes := extractHashes currentVersionData
  let vulnerabilities := getVulnerabilitiesModel cfg r
  let bundle := getBundleSizeModel cfg r
  let record : DependencyInfo :=
    { name := name
      version := currentVersion
      description := jsOrString npm.description "N/A"
      license := license
      licenseProblematic := license ∈ problematicLicenses
      homepage := jsOrString npm.homepage (jsOrString npm.repositoryUrl "")
      securityScore := r.securityScore
      maintenanceScore := calculateMaintenanceScore now npm
      popularityScore := r.popularity.1
      daysSinceUpdate := daysSinceUpdate
      lastPublishDate :=
        match lastPublish with
        | some t => dateRender t
        | none => "Unknown"
      weeklyDownloads := r.popularity.2
      minifiedSize := convertToKb (bundleComponent name (bundle.map Prod.fst))
      gzipSize := convertToKb (bundleComponent name (bundle.map Prod.snd))
      hasVulnerabilities := vulnerabilities.length > 0
      dependencyCount :=
        ((latestVersionData.map (fun vd => vd.dependencies)).getD []).length
      peerDependencies :=
        (latestVersionData.map (fun vd => vd.peerDependencies)).getD []
      integrity := hashes.1
      shasum := hashes.2
      supplier := extractSupplier npm
      vulnerabilities :=
        if vulnerabilities.length > 0 then some vulnerabilities else Option.none
      deprecated :=
        match currentVersionData with
        | some vd => if jsTruthyStr vd.deprecated then vd.deprecated else Option.none
        | none => Option.none
      transitiveDependencies :=
        if cfg.includeTransitiveDeps then
          some (((currentVersionData.map (fun vd => vd.dependencies)).getD
            []).map Prod.fst)
        else Option.none
      risk := Option.none }
  let run := calculateRiskScoreRun record
  ({ run.2 with risk := some run.1 }, outdatedEntry)

/-- Reason string recorded for a failed registry-metadata fetch. -/
def fetchFailedReason : String := "Failed to fetch package data from npm registry"

/-- Outcome of one declaration's settled task: a record (with its optional
outdated entry), or the `fetch_failed` known unknown when the primary
registry-metadata call returned nothing. -/
def analyzeOne (now : ℚ) (cfg : SBOMConfig) (name version : String)
    (r : ProviderResults) :
    (DependencyInfo × Option (String × OutdatedInfo)) ⊕ KnownUnknown :=
  match r.npmData with
  | some npm => .inl (analyzeRecord now cfg name version r npm)
  | none => .inr ⟨name, stripRange version, fetchFailedReason, .fetch_failed⟩

/-- `analyzeDependencies` over a batch: one settled outcome per declaration
(`env` gives each declaration's provider results), records re-sorted
ascending by `risk?.score || 100`.  Known unknowns and outdated entries are
collected in declaration order (their arrival order in the source depends
on task scheduling, which no claim observes). -/
def analyzeDependencies (now : ℚ) (cfg : SBOMConfig)
    (deps : List (String × String))
    (env : String → String → ProviderResults) :
    List DependencyInfo × List (String × OutdatedInfo) × List KnownUnknown :=
  (List.insertionSort (byKeyAsc (jsRiskOr 100))
    (deps.filterMap (fun nv =>
      match analyzeOne now cfg nv.1 nv.2 (env nv.1 nv.2) with
      | .inl p => some p.1
      | .inr _ => Option.none)),
   deps.filterMap (fun nv =>
      match analyzeOne now cfg nv.1 nv.2 (env nv.1 nv.2) with
      | .inl p => p.2
      | .inr _ => Option.none),
   deps.filterMap (fun nv =>
      match analyzeOne now cfg nv.1 nv.2 (env nv.1 nv.2) with
      | .inl _ => Option.none
      | .inr ku => some ku))

theorem keys_unique {α γ : Type*} {l : List (α × γ)}
    (h : (l.map Prod.fst).Nodup) {n : α} {v w : γ}
    (h1 : (n, v) ∈ l) (h2 : (n, w) ∈ l) : v = w := by
  induction l with
  | nil => cases h1
  | cons hd t ih =>
      rw [List.map_cons, List.nodup_cons] at h
      rcases List.mem_cons.mp h1 with h1' | h1' <;>
        rcases List.mem_cons.mp h2 with h2' | h2'
      · rw [← h1'] at h2'
        exact congrArg Prod.snd h2'.symm
      · have hn : hd.1 = n := by rw [← h1']
        have hmem' : n ∈ t.map Prod.fst := List.mem_map.mpr ⟨(n, w), h2', rfl⟩
        exact absurd (hn ▸ hmem') h.1
      · have hn : hd.1 = n := by rw [← h2']
        have hmem' : n ∈ t.map Prod.fst := List.mem_map.mpr ⟨(n, v), h1', rfl⟩
        exact absurd (hn ▸ hmem') h.1
      · exact ih h.2 h1' h2'

theorem filterMap_mem_key {α γ β : Type*} (key : β → α)
    (f : α × γ → Option β)
    (hkey : ∀ x y, f x = some y → key y = x.1)
    (l : List (α × γ)) {b : β} (hb : b ∈ l.filterMap f) :
    key b ∈ l.map Prod.fst := by
  obtain ⟨x, hx, hfx⟩ := List.mem_filterMap.mp hb
  rw [hkey x b hfx]
  exact List.mem_map_of_mem Prod.fst hx

theorem filterMap_filter_key {α γ β : Type*} [DecidableEq α] (key : β → α)
    (f : α × γ → Option β)
    (hkey : ∀ x y, f x = some y → key y = x.1)
    {l : List (α × γ)} (h : (l.map Prod.fst).Nodup)
    {n : α} {v : γ} (hmem : (n, v) ∈ l) :
    (l.filterMap f).filter (fun b => key b = n) = (f (n, v)).toList := by
  induction l with
  | nil => cases hmem
  | cons hd t ih =>
      rw [List.map_cons, List.nodup_cons] at h
      rcases List.mem_cons.mp hmem with h1 | h1
      · subst h1
        have hrest : (t.filterMap f).filter (fun b => key b = n) = [] := by
          rw [List.filter_eq_nil_iff]
          intro b hb
          have := filterMap_mem_key key f hkey t hb
          simp only [decide_eq_true_eq]
          intro hkb
          exact h.1 (hkb ▸ this)
        cases hf : f (n, v) with
        | some b =>
            have hb : key b = n := hkey _ _ hf
            simp [List.filterMap_cons, hf, List.filter_cons, hb, hrest]
        | none =>
            simp [List.filterMap_cons, hf, hrest]
      · have hne : hd.1 ≠ n := by
          intro he
          exact h.1 (he ▸ List.mem_map_of_mem Prod.fst h1)
        cases hf : f hd with
        | some b =>
            have hb : key b = hd.1 := hkey _ _ hf
            simp [List.filterMap_cons, hf, List.filter_cons, hb, hne,
              ih h.2 h1]
        | none =>
            simp [List.filterMap_cons, hf, ih h.2 h1]

theorem length_filterMap_isSome {α β : Type*} (f : α → Option β)
    (l : List α) :
    (l.filterMap f).length = (l.filter (fun x => (f x).isSome)).length := by
  induction l with
  | nil => rfl
  | cons a t ih =>
      cases hf : f a <;>
        simp [List.filterMap_cons, List.filter_cons, hf, ih]

theorem analyzeRecord_proj (now : ℚ) (cfg : SBOMConfig) (name version : String)
    (r : ProviderResults) (npm : NpmData) :
    (analyzeRecord now cfg name version r npm).1.name = name ∧
    (analyzeRecord now cfg name version r npm).1.securityScore = r.securityScore ∧
    (analyzeRecord now cfg name version r npm).1.popularityScore = r.popularity.1 ∧
    (analyzeRecord now cfg name version r npm).1.weeklyDownloads = r.popularity.2 ∧
    (analyzeRecord now cfg name version r npm).1.minifiedSize =
      convertToKb (bundleComponent name ((getBundleSizeModel cfg r).map Prod.fst)) ∧
    (analyzeRecord now cfg name version r npm).1.gzipSize =
      convertToKb (bundleComponent name ((getBundleSizeModel cfg r).map Prod.snd)) ∧
    (analyzeRecord now cfg name version r npm).1.vulnerabilities =
      (if (getVulnerabilitiesModel cfg r).length > 0
        then some (getVulnerabilitiesModel cfg r) else Option.none) ∧
    (analyzeRecord now cfg name version r npm).1.hasVulnerabilities =
      decide ((getVulnerabilitiesModel cfg r).length > 0) := by
  refine ⟨?_, ?_, ?_, ?_, ?_, ?_, ?_, ?_⟩ <;>
    rcases hv : getVulnerabilitiesModel cfg r with _ | ⟨x, xs⟩ <;>
      simp [analyzeRecord, calculateRiskScoreRun_snd, vulnList, hv]

/-- Error bookkeeping of the batch: a declaration whose registry-metadata
fetch failed yields exactly one `fetch_failed` known unknown (no record, so
it adds nothing to the dependency counts), while a declaration whose
metadata call succeeded yields exactly one record and no known unknown even
when every other provider failed — those failures only degrade the
corresponding fields to their sentinels (`'N/A'` security score, zero
sizes, zero popularity and downloads, no vulnerabilities). -/
theorem analyzeDependencies_fetch_failed_bookkeeping
    (now : ℚ) (cfg : SBOMConfig) (deps : List (String × String))
    (env : String → String → ProviderResults)
    (n v m w : String) (npm : NpmData)
    (hnodup : (deps.map Prod.fst).Nodup)
    (hmem1 : (n, v) ∈ deps)
    (hfail : (env n v).npmData = Option.none)
    (hmem2 : (m, w) ∈ deps)
    (hok : (env m w).npmData = some npm)
    (hsec : (env m w).securityScore = SecurityScore.na)
    (hbun : (env m w).bundleSize = Option.none)
    (hpop : (env m w).popularity = (0, 0))
    (hvul : (env m w).vulns = []) :
    ((analyzeDependencies now cfg deps env).2.2.filter
        (fun ku => ku.name = n)) =
      [⟨n, stripRange v, fetchFailedReason, .fetch_failed⟩] ∧
    ((analyzeDependencies now cfg deps env).1.filter
        (fun d => d.name = n)) = [] ∧
    (analyzeDependencies now cfg deps env).1.length =
      (deps.filter (fun nv => ((env nv.1 nv.2).npmData).isSome)).length ∧
    ((analyzeDependencies now cfg deps env).2.2.filter
        (fun ku => ku.name = m)) = [] ∧
    ((analyzeDependencies now cfg deps env).1.filter
        (fun d => d.name = m)) =
      [(analyzeRecord now cfg m w (env m w) npm).1] ∧
    (analyzeRecord now cfg m w (env m w) npm).1.securityScore =
      SecurityScore.na ∧
    (analyzeRecord now cfg m w (env m w) npm).1.minifiedSize = 0 ∧
    (analyzeRecord now cfg m w (env m w) npm).1.gzipSize = 0 ∧
    (analyzeRecord now cfg m w (env m w) npm).1.popularityScore = 0 ∧
    (analyzeRecord now cfg m w (env m w) npm).1.weeklyDownloads = 0 ∧
    (analyzeRecord now cfg m w (env m w) npm).1.vulnerabilities =
      Option.none ∧
    (analyzeRecord now cfg m w (env m w) npm).1.hasVulnerabilities = false := by
  have hkeyF : ∀ (x : String × String) (y : DependencyInfo),
      (match analyzeOne now cfg x.1 x.2 (env x.1 x.2) with
        | .inl p => some p.1
        | .inr _ => Option.none) = some y → y.name = x.1 := by
    intro x y hx
    unfold analyzeOne at hx
    cases hnpm : (env x.1 x.2).npmData with
    | some npm' =>
        rw [hnpm] at hx
        simp only [Option.some.injEq] at hx
        rw [← hx]
        exact (analyzeRecord_proj now cfg x.1 x.2 (env x.1 x.2) npm').1
    | none =>
        rw [hnpm] at hx
        cases hx
  have hkeyG : ∀ (x : String × String) (y : KnownUnknown),
      (match analyzeOne now cfg x.1 x.2 (env x.1 x.2) with
        | .inl _ => Option.none
        | .inr ku => some ku) = some y → y.name = x.1 := by
    intro x y hx
    unfold analyzeOne at hx
    cases hnpm : (env x.1 x.2).npmData with
    | some npm' =>
        rw [hnpm] at hx
        cases hx
    | none =>
        rw [hnpm] at hx
        simp only [Option.some.injEq] at hx
        rw [← hx]
  have hFn : (match analyzeOne now cfg n v (env n v) with
      | .inl p => some p.1
      | .inr _ => Option.none) = (Option.none : Option DependencyInfo) := by
    unfold analyzeOne
    rw [hfail]
  have hGn : (match analyzeOne now cfg n v (env n v) with
      | .inl _ => Option.none
      | .inr ku => some ku) =
      some (⟨n, stripRange v, fetchFailedReason, .fetch_failed⟩ : KnownUnknown) := by
    unfold analyzeOne
    rw [hfail]
  have hFm : (match analyzeOne now cfg m w (env m w) with
      | .inl p => some p.1
      | .inr _ => Option.none) =
      some (analyzeRecord now cfg m w (env m w) npm).1 := by
    unfold analyzeOne
    rw [hok]
  have hGm : (match analyzeOne now cfg m w (env m w) with
      | .inl _ => Option.none
      | .inr ku => some ku) = (Option.none : Option KnownUnknown) := by
    unfold analyzeOne
    rw [hok]
  have hperm := List.perm_insertionSort (byKeyAsc (jsRiskOr 100))
    (deps.filterMap (fun nv =>
      match analyzeOne now cfg nv.1 nv.2 (env nv.1 nv.2) with
      | .inl p => some p.1
      | .inr _ => Option.none))
  obtain ⟨hname, hsecp, hpopp, hdlp, hminp, hgzp, hvulp, hhasp⟩ :=
    analyzeRecord_proj now cfg m w (env m w) npm
  refine ⟨?_, ?_, ?_, ?_, ?_, ?_, ?_, ?_, ?_, ?_, ?_, ?_⟩
  · have := filterMap_filter_key KnownUnknown.name _ hkeyG hnodup hmem1
    rw [hGn] at this
    exact this
  · have hbase := filterMap_filter_key DependencyInfo.name _ hkeyF hnodup hmem1
    rw [hFn] at hbase
    have := (hperm.filter (fun d => d.name = n)).symm
    rw [hbase] at this
    exact (List.Perm.symm this).eq_nil
  · have h1 : (analyzeDependencies now cfg deps env).1.length =
        (deps.filterMap (fun nv =>
          match analyzeOne now cfg nv.1 nv.2 (env nv.1 nv.2) with
          | .inl p => some p.1
          | .inr _ => Option.none)).length := hperm.length_eq
    rw [h1, length_filterMap_isSome]
    congr 1
    apply List.filter_congr
    intro nv _
    cases hnpm : (env nv.1 nv.2).npmData <;>
      simp [analyzeOne, hnpm]
  · have := filterMap_filter_key KnownUnknown.name _ hkeyG hnodup hmem2
    rw [hGm] at this
    exact this
  · have hbase := filterMap_filter_key DependencyInfo.name _ hkeyF hnodup hmem2
    rw [hFm] at hbase
    have := hperm.filter (fun d => d.name = m)
    rw [hbase] at this
    exact List.perm_singleton.mp this
  · rw [hsecp, hsec]
  · rw [hminp]
    norm_num [getBundleSizeModel, hbun, bundleComponent, convertToKb, jsRound]
  · rw [hgzp]
    norm_num [getBundleSizeModel, hbun, bundleComponent, convertToKb, jsRound]
  · rw [hpopp, hpop]
  · rw [hdlp, hpop]
  · rw [hvulp]
    simp [getVulnerabilitiesModel, hvul]
  · rw [hhasp]
    simp [getVulnerabilitiesModel, hvul]

/-- Registry document for the witness batch's successful declaration. -/
def npmWitness : NpmData :=
  { distTagLatest := some "4.17.21", license := some "MIT" }

/-- Provider results for the witness batch: `lodash` has registry metadata
but every other provider failed; `left-pad`'s registry fetch failed. -/
def envWitness : String → String → ProviderResults := fun name _ =>
  if name = "lodash" then
    { npmData := some npmWitness
      securityScore := .na
      bundleSize := Option.none
      popularity := (0, 0)
      vulns := [] }
  else
    { npmData := Option.none
      securityScore := .na
      bundleSize := Option.none
      popularity := (0, 0)
      vulns := [] }

/-- Witness batch of two declarations. -/
def depsWitness : List (String × String) :=
  [("left-pad", "^1.3.0"), ("lodash", "^4.17.21")]

theorem analyzeDependencies_fetch_failed_witness :
    ((analyzeDependencies 0 {} depsWitness envWitness).2.2.filter
        (fun ku => ku.name = "left-pad")) =
      [⟨"left-pad", stripRange "^1.3.0", fetchFailedReason, .fetch_failed⟩] ∧
    ((analyzeDependencies 0 {} depsWitness envWitness).1.filter
        (fun d => d.name = "left-pad")) = [] ∧
    (analyzeDependencies 0 {} depsWitness envWitness).1.length =
      (depsWitness.filter (fun nv =>
        ((envWitness nv.1 nv.2).npmData).isSome)).length ∧
    ((analyzeDependencies 0 {} depsWitness envWitness).2.2.filter
        (fun ku => ku.name = "lodash")) = [] ∧
    ((analyzeDependencies 0 {} depsWitness envWitness).1.filter
        (fun d => d.name = "lodash")) =
      [(analyzeRecord 0 {} "lodash" "^4.17.21"
          (envWitness "lodash" "^4.17.21") npmWitness).1] ∧
    (analyzeRecord 0 {} "lodash" "^4.17.21"
        (envWitness "lodash" "^4.17.21") npmWitness).1.securityScore =
      SecurityScore.na ∧
    (analyzeRecord 0 {} "lodash" "^4.17.21"
        (envWitness "lodash" "^4.17.21") npmWitness).1.minifiedSize = 0 ∧
    (analyzeRecord 0 {} "lodash" "^4.17.21"
        (envWitness "lodash" "^4.17.21") npmWitness).1.gzipSize = 0 ∧
    (analyzeRecord 0 {} "lodash" "^4.17.21"
        (envWitness "lodash" "^4.17.21") npmWitness).1.popularityScore = 0 ∧
    (analyzeRecord 0 {} "lodash" "^4.17.21"
        (envWitness "lodash" "^4.17.21") npmWitness).1.weeklyDownloads = 0 ∧
    (analyzeRecord 0 {} "lodash" "^4.17.21"
        (envWitness "lodash" "^4.17.21") npmWitness).1.vulnerabilities =
      Option.none ∧
    (analyzeRecord 0 {} "lodash" "^4.17.21"
        (envWitness "lodash" "^4.17.21") npmWitness).1.hasVulnerabilities =
      false :=
  analyzeDependencies_fetch_failed_bookkeeping 0 {} depsWitness envWitness
    "left-pad" "^1.3.0" "lodash" "^4.17.21" npmWitness
    (by decide) (by decide) (by decide) (by decide) (by decide)
    (by decide) (by decide) (by decide) (by decide)

theorem bundleComponent_types (name : String)
    (h : strStartsWith name "@types" = true) (v : Option ℤ) :
    bundleComponent name v = 0 := by
  cases v <;> simp [bundleComponent, h]

theorem sum_map_filter_ne_zero {α : Type*} (f : α → ℤ) (l : List α) :
    ((l.filter (fun d => f d ≠ 0)).map f).sum = (l.map f).sum := by
  induction l with
  | nil => rfl
  | cons a t ih =>
      by_cases h : f a = 0 <;> simp [List.filter_cons, h] <;>
        simpa using ih

/-- Bundle sizes of `@types` packages are forced to zero regardless of the
provider's answer; records of zero minified size never reach
`heaviestDependencies` (all its entries have positive size) and contribute
nothing to `totalBundleSize` (the sum is unchanged when they are dropped). -/
theorem typesPackages_zero_bundle
    (now : ℚ) (cfg : SBOMConfig) (name version : String)
    (r : ProviderResults) (npm : NpmData)
    (h : strStartsWith name "@types" = true) :
    (analyzeRecord now cfg name version r npm).1.minifiedSize = 0 ∧
    (analyzeRecord now cfg name version r npm).1.gzipSize = 0 ∧
    (∀ (packages : List PackageData)
      (outdated : Option (List (String × OutdatedInfo)))
      (audit : Option AuditData),
      ∀ e ∈ (generateInsights packages outdated audit).heaviestDependencies,
        0 < e.size) ∧
    (∀ (packages : List PackageData)
      (outdated : Option (List (String × OutdatedInfo)))
      (audit : Option AuditData),
      (generateInsights packages outdated audit).totalBundleSize =
        (((allDepsOf packages).filter (fun d => d.minifiedSize ≠ 0)).map
          (fun d => d.minifiedSize)).sum) := by
  obtain ⟨-, -, -, -, hmin, hgz, -, -⟩ :=
    analyzeRecord_proj now cfg name version r npm
  refine ⟨?_, ?_, ?_, ?_⟩
  · rw [hmin, bundleComponent_types name h]
    norm_num [convertToKb, jsRound]
  · rw [hgz, bundleComponent_types name h]
    norm_num [convertToKb, jsRound]
  · intro packages outdated audit e he
    simp only [generateInsights] at he
    obtain ⟨d, hd, rfl⟩ := List.mem_map.mp he
    have hd' := List.mem_of_mem_take hd
    have := (List.mem_filter.mp hd').2
    simpa using this
  · intro packages outdated audit
    simp only [generateInsights]
    exact (sum_map_filter_ne_zero (fun d => d.minifiedSize)
      (allDepsOf packages)).symm

/-- Provider results for a `@types` package whose bundle-size provider
answered with non-zero byte counts. -/
def typesProviderResults : ProviderResults :=
  { npmData := some npmWitness
    securityScore := .num 90
    bundleSize := some (204800, 51200)
    popularity := (70, 20000)
    vulns := [] }

theorem typesPackages_zero_bundle_witness :
    (analyzeRecord 0 {} "@types/node" "^18.0.0" typesProviderResults
        npmWitness).1.minifiedSize = 0 ∧
    (analyzeRecord 0 {} "@types/node" "^18.0.0" typesProviderResults
        npmWitness).1.gzipSize = 0 ∧
    (∀ (packages : List PackageData)
      (outdated : Option (List (String × OutdatedInfo)))
      (audit : Option AuditData),
      ∀ e ∈ (generateInsights packages outdated audit).heaviestDependencies,
        0 < e.size) ∧
    (∀ (packages : List PackageData)
      (outdated : Option (List (String × OutdatedInfo)))
      (audit : Option AuditData),
      (generateInsights packages outdated audit).totalBundleSize =
        (((allDepsOf packages).filter (fun d => d.minifiedSize ≠ 0)).map
          (fun d => d.minifiedSize)).sum) :=
  typesPackages_zero_bundle 0 {} "@types/node" "^18.0.0" typesProviderResults
    npmWitness (by decide)

/-- Root manifest fields read by the document emitters. -/
structure PackageJson where
  name : Option String := Option.none
  version : Option String := Option.none
  homepage : Option String := Option.none
  repositoryUrl : Option String := Option.none
  license : Option String := Option.none
  description : Option String := Option.none
deriving DecidableEq, Repr

/-- SPDX external reference (the purl entry). -/
structure SPDXExternalRef where
  referenceCategory : String
  referenceType : String
  referenceLocator : String
deriving DecidableEq, Repr

/-- SPDX package node.  (Checksum emission — decoding the integrity digest
into algorithm/hex pairs — is outside the modelled fragment; no claim
mentions it.) -/
structure SPDXPackage where
  SPDXID : String
  name : String
  versionInfo : String
  downloadLocation : String
  filesAnalyzed : Bool
  supplier : String
  homepage : String
  licenseConcluded : String
  licenseDeclared : String
  copyrightText : String
  description : String
  externalRefs : List SPDXExternalRef := []
deriving DecidableEq, Repr

/-- SPDX relationship triple. -/
structure SPDXRelationship where
  spdxElementId : String
  relationshipType : String
  relatedSpdxElement : String
deriving DecidableEq, Repr

/-- SPDX 2.3 document (fields the generator emits). -/
structure SPDXDocument where
  spdxVersion : String
  dataLicense : String
  SPDXID : String
  name : String
  documentNamespace : String
  packages : List SPDXPackage
  relationships : List SPDXRelationship
deriving DecidableEq, Repr

/-- JS `s || d` on a plain (possibly empty) string. -/
def jsOrStringS (s d : String) : String := if s = "" then d else s

/-- Character sanitization of `name.replace(/[^a-zA-Z0-9.-]/g, '-')`. -/
def spdxSanitizeChar (c : Char) : Char :=
  if c.isAlphanum || c = '.' || c = '-' then c else '-'

/-- `toSPDXID`: the SPDX identifier derived from a dependency name. -/
def toSPDXID (name : String) : String :=
  "SPDXRef-Package-" ++ ⟨name.toList.map spdxSanitizeChar⟩

/-- Identifier of the synthetic root package. -/
def rootSPDXID : String := "SPDXRef-Package-Root"

/-- Tarball basename: scoped names keep the part after the slash. -/
def tgzNameOf (name : String) : String :=
  if strStartsWith name "@" then
    match (name.splitOn "/").get? 1 with
    | some s => s
    | none => "undefined"
  else name

/-- Supplier string of a dependency package. -/
def spdxSupplierOf (dep : DependencyInfo) : String :=
  match dep.supplier with
  | some s =>
    "Organization: " ++ s.name ++
      (match s.email with
       | some e => " (" ++ e ++ ")"
       | none => "")
  | none => "NOASSERTION"

/-- The SPDX package node pushed for (the first occurrence of) a
dependency. -/
def mkSpdxPackage (dep : DependencyInfo) : SPDXPackage :=
  { SPDXID := toSPDXID dep.name
    name := dep.name
    versionInfo := dep.version
    downloadLocation := "https://registry.npmjs.org/" ++ dep.name ++ "/-/" ++
      tgzNameOf dep.name ++ "-" ++ dep.version ++ ".tgz"
    filesAnalyzed := false
    supplier := spdxSupplierOf dep
    homepage := jsOrStringS dep.homepage "NOASSERTION"
    licenseConcluded := jsOrStringS dep.license "NOASSERTION"
    licenseDeclared := jsOrStringS dep.license "NOASSERTION"
    copyrightText := "NOASSERTION"
    description := dep.description
    externalRefs :=
      [⟨"PACKAGE-MANAGER", "purl",
        "pkg:npm/" ++ dep.name ++ "@" ++ dep.version⟩] }

/-- The synthetic root package. -/
def mkRootPackage (root : PackageJson) : SPDXPackage :=
  { SPDXID := rootSPDXID
    name := jsOrString root.name "project"
    versionInfo := jsOrString root.version "1.0.0"
    downloadLocation :=
      jsOrString root.homepage (jsOrString root.repositoryUrl "NOASSERTION")
    filesAnalyzed := false
    supplier := "NOASSERTION"
    homepage := jsOrString root.homepage "NOASSERTION"
    licenseConcluded := jsOrString root.license "NOASSERTION"
    licenseDeclared := jsOrString root.license "NOASSERTION"
    copyrightText := "NOASSERTION"
    description := jsOrString root.description ""
    externalRefs := [] }

/-- One iteration of the emission loop: skip when a package with the same
(sanitized) SPDXID was already pushed, else push the package and its
DEPENDS_ON relationship. -/
def spdxStep (st : List SPDXPackage × List SPDXRelationship)
    (dep : DependencyInfo) : List SPDXPackage × List SPDXRelationship :=
  let spdxId := toSPDXID dep.name
  if st.1.any (fun p => p.SPDXID = spdxId) then st
  else
    (st.1 ++ [mkSpdxPackage dep],
     st.2 ++ [⟨rootSPDXID, "DEPENDS_ON", spdxId⟩])

/-- `generateSPDX` (the document timestamp is passed in; the source takes
`new Date().toISOString()`). -/
def generateSPDX (packages : List PackageData) (root : PackageJson)
    (timestamp : String) : SPDXDocument :=
  let projectName := jsOrString root.name "project"
  let projectVersion := jsOrString root.version "1.0.0"
  let st := (allDepsOf packages).foldl spdxStep ([mkRootPackage root], [])
  { spdxVersion := "SPDX-2.3"
    dataLicense := "CC0-1.0"
    SPDXID := "SPDXRef-DOCUMENT"
    name := projectName ++ "-" ++ projectVersion
    documentNamespace := "https://sbom.billofmaterial.dev/" ++ projectName ++
      "/" ++ projectVersion ++ "/" ++ timestamp
    packages := st.1
    relationships :=
      ⟨"SPDXRef-DOCUMENT", "DESCRIBES", rootSPDXID⟩ :: st.2 }

/-- First-occurrence deduplication of dependencies keyed by their sanitized
SPDX identifier, seeded with the identifiers already in the document. -/
def dedupByID (seen : List String) : List DependencyInfo → List DependencyInfo
  | [] => []
  | d :: t =>
    if toSPDXID d.name ∈ seen then dedupByID seen t
    else d :: dedupByID (toSPDXID d.name :: seen) t

theorem dedupByID_cons (seen : List String) (d : DependencyInfo)
    (t : List DependencyInfo) :
    dedupByID seen (d :: t) =
      if toSPDXID d.name ∈ seen then dedupByID seen t
      else d :: dedupByID (toSPDXID d.name :: seen) t := rfl

theorem dedupByID_congr (seen seen' : List String)
    (h : ∀ x, x ∈ seen ↔ x ∈ seen') (l : List DependencyInfo) :
    dedupByID seen l = dedupByID seen' l := by
  induction l generalizing seen seen' with
  | nil => rfl
  | cons d t ih =>
      unfold dedupByID
      by_cases hd : toSPDXID d.name ∈ seen
      · rw [if_pos hd, if_pos ((h _).mp hd)]
        exact ih seen seen' h
      · rw [if_neg hd, if_neg (fun c => hd ((h _).mpr c))]
        rw [ih (toSPDXID d.name :: seen) (toSPDXID d.name :: seen')
          (fun x => by simp [List.mem_cons, h x])]

theorem foldl_spdxStep (l : List DependencyInfo) (ps : List SPDXPackage)
    (rs : List SPDXRelationship) :
    l.foldl spdxStep (ps, rs) =
      (ps ++ (dedupByID (ps.map (fun p => p.SPDXID)) l).map mkSpdxPackage,
       rs ++ (dedupByID (ps.map (fun p => p.SPDXID)) l).map
         (fun d => ⟨rootSPDXID, "DEPENDS_ON", toSPDXID d.name⟩)) := by
  induction l generalizing ps rs with
  | nil => simp [dedupByID]
  | cons d t ih =>
      rw [List.foldl_cons]
      by_cases hmem : toSPDXID d.name ∈ ps.map (fun p => p.SPDXID)
      · have hany : ps.any (fun p => p.SPDXID = toSPDXID d.name) = true := by
          rw [List.any_eq_true]
          obtain ⟨p, hp, he⟩ := List.mem_map.mp hmem
          exact ⟨p, hp, by simp [he]⟩
        have hstep : spdxStep (ps, rs) d = (ps, rs) := by
          unfold spdxStep
          simp [hany]
        rw [hstep, ih, dedupByID_cons, if_pos hmem]
      · have hany : ps.any (fun p => p.SPDXID = toSPDXID d.name) = false := by
          rw [List.any_eq_false]
          intro p hp
          simp only [decide_eq_true_eq]
          intro he
          exact hmem (List.mem_map.mpr ⟨p, hp, he⟩)
        have hstep : spdxStep (ps, rs) d =
            (ps ++ [mkSpdxPackage d],
             rs ++ [⟨rootSPDXID, "DEPENDS_ON", toSPDXID d.name⟩]) := by
          unfold spdxStep
          simp [hany]
        rw [hstep, ih]
        have hseen : ((ps ++ [mkSpdxPackage d]).map (fun p => p.SPDXID)) =
            ps.map (fun p => p.SPDXID) ++ [toSPDXID d.name] := by
          simp [mkSpdxPackage]
        rw [hseen]
        rw [dedupByID_congr (ps.map (fun p => p.SPDXID) ++ [toSPDXID d.name])
          (toSPDXID d.name :: ps.map (fun p => p.SPDXID))
          (fun x => by simp [List.mem_append, List.mem_cons, or_comm]) t]
        rw [dedupByID_cons, if_neg hmem]
        simp [List.append_assoc]

theorem dedupByID_nodup (seen : List String) (l : List DependencyInfo) :
    ((dedupByID seen l).map (fun d => toSPDXID d.name)).Nodup ∧
    ∀ d ∈ dedupByID seen l, toSPDXID d.name ∉ seen := by
  induction l generalizing seen with
  | nil => exact ⟨List.nodup_nil, by intro d hd; cases hd⟩
  | cons d t ih =>
      unfold dedupByID
      by_cases hd : toSPDXID d.name ∈ seen
      · rw [if_pos hd]
        exact ih seen
      · rw [if_neg hd]
        obtain ⟨h1, h2⟩ := ih (toSPDXID d.name :: seen)
        refine ⟨?_, ?_⟩
        · rw [List.map_cons, List.nodup_cons]
          refine ⟨fun hc => ?_, h1⟩
          obtain ⟨d', hd', he⟩ := List.mem_map.mp hc
          exact (h2 d' hd') (he ▸ List.mem_cons_self _ _)
        · intro x hx
          rcases List.mem_cons.mp hx with rfl | hx'
          · exact hd
          · exact fun hc => (h2 x hx') (List.mem_cons_of_mem _ hc)

theorem dedupByID_covers (seen : List String) (l : List DependencyInfo) :
    ∀ d ∈ l, toSPDXID d.name ∈ seen ∨
      ∃ d' ∈ dedupByID seen l, toSPDXID d'.name = toSPDXID d.name := by
  induction l generalizing seen with
  | nil => intro d h; cases h
  | cons a t ih =>
      intro d hd
      unfold dedupByID
      by_cases ha : toSPDXID a.name ∈ seen
      · rw [if_pos ha]
        rcases List.mem_cons.mp hd with rfl | hd'
        · exact .inl ha
        · exact ih seen d hd'
      · rw [if_neg ha]
        rcases List.mem_cons.mp hd with rfl | hd'
        · exact .inr ⟨d, List.mem_cons_self _ _, rfl⟩
        · rcases ih (toSPDXID a.name :: seen) d hd' with hmem | ⟨d', hd'', he⟩
          · rcases List.mem_cons.mp hmem with he | hseen
            · exact .inr ⟨a, List.mem_cons_self _ _, he.symm⟩
            · exact .inl hseen
          · exact .inr ⟨d', List.mem_cons_of_mem _ hd'', he⟩

/-- Amended SPDX structure: the document is the synthetic root package
followed by one package per unique *sanitized identifier* (first occurrence
wins — names that agree after replacing every character outside
`[a-zA-Z0-9.-]` with a dash are identified, as are names sanitizing to the
root identifier); the relationships are one DESCRIBES from the document to
the root followed by one DEPENDS_ON from the root per emitted dependency
package; every emitted dependency package carries exactly the
`pkg:npm/<name>@<version>` purl of its first occurrence. -/
theorem spdx_structure (packages : List PackageData) (root : PackageJson)
    (timestamp : String) :
    (generateSPDX packages root timestamp).packages =
      mkRootPackage root ::
        (dedupByID [rootSPDXID] (allDepsOf packages)).map mkSpdxPackage ∧
    (generateSPDX packages root timestamp).relationships =
      ⟨"SPDXRef-DOCUMENT", "DESCRIBES", rootSPDXID⟩ ::
        (dedupByID [rootSPDXID] (allDepsOf packages)).map
          (fun d => ⟨rootSPDXID, "DEPENDS_ON", toSPDXID d.name⟩) ∧
    (∀ d ∈ dedupByID [rootSPDXID] (allDepsOf packages),
      (mkSpdxPackage d).externalRefs =
        [⟨"PACKAGE-MANAGER", "purl",
          "pkg:npm/" ++ d.name ++ "@" ++ d.version⟩]) ∧
    ((dedupByID [rootSPDXID] (allDepsOf packages)).map
      (fun d => toSPDXID d.name)).Nodup ∧
    (∀ d ∈ allDepsOf packages,
      toSPDXID d.name = rootSPDXID ∨
        ∃ d' ∈ dedupByID [rootSPDXID] (allDepsOf packages),
          toSPDXID d'.name = toSPDXID d.name) := by
  have hfold := foldl_spdxStep (allDepsOf packages)
    [mkRootPackage root] []
  have hseed : ([mkRootPackage root].map (fun p => p.SPDXID)) = [rootSPDXID] := rfl
  rw [hseed] at hfold
  refine ⟨?_, ?_, ?_, (dedupByID_nodup _ _).1, ?_⟩
  · show ((allDepsOf packages).foldl spdxStep ([mkRootPackage root], [])).1 = _
    rw [hfold]
    simp
  · show (⟨"SPDXRef-DOCUMENT", "DESCRIBES", rootSPDXID⟩ :
      SPDXRelationship) ::
      ((allDepsOf packages).foldl spdxStep ([mkRootPackage root], [])).2 = _
    rw [hfold]
    simp
  · intro d _
    rfl
  · intro d hd
    rcases dedupByID_covers [rootSPDXID] (allDepsOf packages) d hd with hmem | h
    · exact .inl (List.mem_singleton.mp hmem)
    · exact .inr h

/-- A record with an underscore in its name; `_` sanitizes to `-`. -/
def spdxDepA : DependencyInfo :=
  { name := "foo_bar"
    version := "1.0.0"
    description := "a"
    license := "MIT"
    licenseProblematic := false
    homepage := ""
    securityScore := .num 50
    maintenanceScore := 100
    popularityScore := 50
    daysSinceUpdate := ((10 : ℤ) : WithTop ℤ)
    lastPublishDate := ""
    weeklyDownloads := 10
    minifiedSize := 1
    gzipSize := 1
    hasVulnerabilities := false
    dependencyCount := 0
    peerDependencies := [] }

/-- A distinct dependency name that sanitizes to the same SPDX id. -/
def spdxDepB : DependencyInfo := { spdxDepA with name := "foo-bar" }

/-- One analyzed package depending on both names. -/
def spdxCexPackages : List PackageData :=
  [{ packageName := some "app"
     dependencies := [spdxDepA, spdxDepB]
     devDependencies := [] }]

/-- Root manifest of the counterexample. -/
def spdxCexRoot : PackageJson := { name := some "app", version := some "1.0.0" }

/-- Two distinct dependency names (`foo_bar`, `foo-bar`) yield a single
dependency package: dedup is keyed by the sanitized SPDXID, not by the
name, so the document does not contain one package per unique name. -/
theorem spdx_unique_name_cex :
    spdxDepA.name ≠ spdxDepB.name ∧
    (generateSPDX spdxCexPackages spdxCexRoot
        "2024-01-01T00:00:00.000Z").packages.map (fun p => p.name) =
      ["app", "foo_bar"] := by
  constructor
  · decide
  · rfl

/-- Phase of one task with respect to `RateLimiter.execute`: before the
admission check (`pending`), parked in the wait queue (`waiting`), inside
`fn` between the `current++` and the `current--` (`running`), or finished
(`done`). -/
inductive TaskPhase where
  | pending
  | waiting
  | running
  | done
deriving DecidableEq, Repr

/-- Shared state of one `RateLimiter` instance together with the phases of
the tasks using it. -/
structure LimiterState where
  current : ℕ
  tasks : List TaskPhase
deriving DecidableEq, Repr

/-- Number of tasks inside `fn` — the in-flight upstream calls. -/
def countRunning (l : List TaskPhase) : ℕ :=
  (l.filter (fun t => t = TaskPhase.running)).length

/-- Interleaving semantics of `RateLimiter.execute`.  JavaScript runs each
task to completion between `await`s, so the admission check
`current >= maxConcurrent`, the increment, and the decrement are atomic
steps; a woken waiter re-enters the `while` check (it returns to
`pending`), and a release wakes at most one queued waiter. -/
inductive LimiterStep (maxConcurrent : ℕ) : LimiterState → LimiterState → Prop where
  | acquire (s : LimiterState) (i : ℕ)
      (hi : s.tasks[i]? = some TaskPhase.pending)
      (hlt : s.current < maxConcurrent) :
      LimiterStep maxConcurrent s ⟨s.current + 1, s.tasks.set i TaskPhase.running⟩
  | enqueue (s : LimiterState) (i : ℕ)
      (hi : s.tasks[i]? = some TaskPhase.pending)
      (hge : maxConcurrent ≤ s.current) :
      LimiterStep maxConcurrent s ⟨s.current, s.tasks.set i TaskPhase.waiting⟩
  | release (s : LimiterState) (i : ℕ)
      (hi : s.tasks[i]? = some TaskPhase.running)
      (hnw : ∀ j : ℕ, s.tasks[j]? ≠ some TaskPhase.waiting) :
      LimiterStep maxConcurrent s ⟨s.current - 1, s.tasks.set i TaskPhase.done⟩
  | releaseWake (s : LimiterState) (i j : ℕ)
      (hi : s.tasks[i]? = some TaskPhase.running)
      (hj : s.tasks[j]? = some TaskPhase.waiting)
      (hij : i ≠ j) :
      LimiterStep maxConcurrent s
        ⟨s.current - 1,
         (s.tasks.set i TaskPhase.done).set j TaskPhase.pending⟩

/-- Initial state: no call in flight, every task before its first check. -/
def initState (n : ℕ) : LimiterState := ⟨0, List.replicate n TaskPhase.pending⟩

/-- States reachable from the initial state of a batch of `n` tasks under
any interleaving. -/
inductive LimiterReachable (maxConcurrent n : ℕ) : LimiterState → Prop where
  | init : LimiterReachable maxConcurrent n (initState n)
  | step {s s' : LimiterState} (h : LimiterReachable maxConcurrent n s)
      (hs : LimiterStep maxConcurrent s s') :
      LimiterReachable maxConcurrent n s'

theorem countRunning_set (l : List TaskPhase) (i : ℕ) (a b : TaskPhase)
    (h : l[i]? = some a) :
    countRunning (l.set i b) + (if a = TaskPhase.running then 1 else 0) =
      countRunning l + (if b = TaskPhase.running then 1 else 0) := by
  induction l generalizing i with
  | nil => cases h
  | cons x t ih =>
      cases i with
      | zero =>
          rw [List.getElem?_cons_zero, Option.some_inj] at h
          subst h
          rw [List.set_cons_zero]
          unfold countRunning
          rw [List.filter_cons, List.filter_cons]
          by_cases hx : x = TaskPhase.running <;>
            by_cases hb : b = TaskPhase.running <;>
              simp [hx, hb]
      | succ k =>
          rw [List.getElem?_cons_succ] at h
          rw [List.set_cons_succ]
          have hk := ih k h
          unfold countRunning at hk ⊢
          rw [List.filter_cons, List.filter_cons]
          by_cases hx : x = TaskPhase.running <;> simp [hx] <;> omega

theorem countRunning_pos (l : List TaskPhase) (i : ℕ)
    (h : l[i]? = some TaskPhase.running) : 1 ≤ countRunning l := by
  have hm : TaskPhase.running ∈ l := List.getElem?_mem h
  have hmem : TaskPhase.running ∈ l.filter (fun t => t = TaskPhase.running) :=
    List.mem_filter.mpr ⟨hm, by simp⟩
  exact List.length_pos.mpr (List.ne_nil_of_mem hmem)

theorem rateLimiter_step_preserves {maxConcurrent : ℕ} {s s' : LimiterState}
    (hs : LimiterStep maxConcurrent s s')
    (hle : s.current ≤ maxConcurrent)
    (heq : s.current = countRunning s.tasks) :
    s'.current ≤ maxConcurrent ∧ s'.current = countRunning s'.tasks := by
  cases hs with
  | acquire i hi hlt =>
      have hcount := countRunning_set s.tasks i TaskPhase.pending
        TaskPhase.running hi
      simp at hcount
      refine ⟨?_, ?_⟩ <;> dsimp only <;> omega
  | enqueue i hi hge =>
      have hcount := countRunning_set s.tasks i TaskPhase.pending
        TaskPhase.waiting hi
      simp at hcount
      refine ⟨?_, ?_⟩ <;> dsimp only <;> omega
  | release i hi hnw =>
      have hcount := countRunning_set s.tasks i TaskPhase.running
        TaskPhase.done hi
      have hpos := countRunning_pos s.tasks i hi
      simp at hcount
      refine ⟨?_, ?_⟩ <;> dsimp only <;> omega
  | releaseWake i j hi hj hij =>
      have hcount1 := countRunning_set s.tasks i TaskPhase.running
        TaskPhase.done hi
      have hpos := countRunning_pos s.tasks i hi
      have hj' : (s.tasks.set i TaskPhase.done)[j]? =
          some TaskPhase.waiting := by
        rw [List.getElem?_set_ne hij]
        exact hj
      have hcount2 := countRunning_set (s.tasks.set i TaskPhase.done) j
        TaskPhase.waiting TaskPhase.pending hj'
      simp at hcount1 hcount2
      refine ⟨?_, ?_⟩ <;> dsimp only <;> omega

/-- The limiter invariant: under any interleaving the counter equals the
number of tasks inside `fn`, and never exceeds the configured bound — at no
instant are more than `maxConcurrent` upstream calls in flight. -/
theorem rateLimiter_bound (maxConcurrent n : ℕ) (s : LimiterState)
    (h : LimiterReachable maxConcurrent n s) :
    s.current ≤ maxConcurrent ∧ s.current = countRunning s.tasks := by
  induction h with
  | init =>
      refine ⟨Nat.zero_le _, ?_⟩
      unfold initState countRunning
      induction n with
      | zero => rfl
      | succ k ihk => simpa [List.replicate_succ, List.filter_cons] using ihk
  | step hreach hs ih =>
      exact rateLimiter_step_preserves hs ih.1 ih.2

theorem rateLimiter_bound_witness :
    (initState 3).current ≤ 2 ∧
    (initState 3).current = countRunning (initState 3).tasks :=
  rateLimiter_bound 2 3 (initState 3) LimiterReachable.init
